import Mathlib

/-!
Verification of the level-progression core of `shplat` (src/level.rs,
src/inspector.rs) against its natural-language specification.

The embedding models the bevy ECS world shallowly:

* entities are natural numbers; the component data of the components the
  level core reads or writes is collected in one `Components` record per
  entity (absent marker components are `false` / `none`);
* the `Level` resource (level.rs:49-56), the entity table, the on-disk
  scene store and an event log form the `World`;
* bevy's relationship pair `Keys` / `KeyOf` (level.rs:128-136) is modelled
  by the `keyOf` back-reference alone; the `Keys` collection of a door is
  the derived set of live keys whose `keyOf` names it, exactly the
  invariant bevy maintains for relationship components;
* command-queue ordering (`level.0 = ...` runs immediately inside an
  observer, `run_system_cached` systems run afterwards in queue order) is
  captured by function composition order and recorded in the `log`;
* despawning is recursive over children, and despawning an entity that
  carries `MustKeep` fires the `must_keep` observer (level.rs:161-165)
  before the batch is gone, inserting `Locked` on the surviving door.

Floating point payloads (transforms, collider extents) are represented by
integer pairs; no claim depends on arithmetic over them.
-/

namespace Shplat

/-- Events recorded while systems run, used to state ordering claims. -/
inductive Act
  | setLevel (s : String)
  | despawnPass
  | deserialize (s : String)
  | serializeTo (s : String)
  deriving Repr, DecidableEq

/-- Per-entity component data for every component the level core touches.
Marker components are booleans, payload components are options.  The
fields mirror level.rs / weapon.rs: `serializeTag` is `Serialize`
(level.rs:45-47), `door` is `Door(pub String)` (level.rs:105), `keyOf` is
`KeyOf(pub Entity)` (level.rs:136), `collider` is
`SerializedColliderConstructor` rectangle extents (level.rs:200-221),
`rigidBodyStatic` is `RigidBody` (`some true` = Static),
`dynamicSceneRoot` is the pending scene path of a `DynamicSceneRoot`
placeholder (level.rs:281-286). -/
structure Components where
  serializeTag : Bool := false
  name : Option String := none
  transform : Option (Int × Int) := none
  globalTransform : Option (Int × Int) := none
  visibility : Bool := false
  player : Bool := false
  childOf : Option Nat := none
  selectedWeapon : Bool := false
  shotgun : Bool := false
  assaultRifle : Bool := false
  gravityGun : Bool := false
  levelGeometry : Bool := false
  door : Option String := none
  locked : Bool := false
  key : Bool := false
  mustDestroy : Bool := false
  mustKeep : Bool := false
  keyOf : Option Nat := none
  wall : Bool := false
  killBox : Bool := false
  sensor : Bool := false
  collisionEvents : Bool := false
  rigidBodyStatic : Option Bool := none
  collider : Option (Int × Int) := none
  bullet : Bool := false
  dynamicSceneRoot : Option String := none
  deriving Repr, DecidableEq

/-- The entity table: association list from entity id to components. -/
abbrev Ents := List (Nat × Components)

/-- The modelled world: the `Level` resource string, a fresh-id counter,
the entity table, the on-disk scene store (identifier to snapshot), and
the event log. -/
structure World where
  level : String
  nextId : Nat
  ents : Ents
  store : List (String × Ents)
  log : List Act := []
  deriving Repr, DecidableEq

/-- First components registered under an entity id, if alive. -/
def getE (l : Ents) (e : Nat) : Option Components :=
  (l.find? (fun ec => ec.1 = e)).map (fun ec => ec.2)

/-- Components of a live entity in a world. -/
def getC (w : World) (e : Nat) : Option Components :=
  getE w.ents e

/-- An entity is alive when the table has an entry for it. -/
def alive (w : World) (e : Nat) : Bool :=
  (getC w e).isSome

/-- Parent entity, through `ChildOf`. -/
def parentOf (l : Ents) (e : Nat) : Option Nat :=
  (getE l e).bind (fun c => c.childOf)

/-- Walk `ChildOf` links up to the root, with fuel. -/
def rootOf (l : Ents) : Nat → Nat → Nat
  | 0, e => e
  | fuel + 1, e =>
    match parentOf l e with
    | some p => rootOf l fuel p
    | none => e

/-- Table-level test for a persisted root: `With<Serialize>,
Without<ChildOf>`. -/
def entsSerRoot (l : Ents) (e : Nat) : Bool :=
  match getE l e with
  | some c => c.serializeTag && c.childOf.isNone
  | none => false

/-- A persisted root: `With<Serialize>, Without<ChildOf>`, the query of
`despawn_level` (level.rs:300-307). -/
def isSerializedRoot (w : World) (e : Nat) : Bool :=
  entsSerRoot w.ents e

/-- An entity dies in `despawn_level` exactly when the root of its parent
chain is a persisted root (engine cascading despawn). -/
def deadByReset (w : World) (e : Nat) : Bool :=
  isSerializedRoot w (rootOf w.ents w.nextId e)

/-- Doors the `must_keep` observer (level.rs:161-165) will lock: for every
removed entity that still carries `MustKeep` and a `KeyOf` back-reference,
the referenced door. -/
def must_keep_adds (l : Ents) (dead : Nat → Bool) : List Nat :=
  l.filterMap (fun ec => if dead ec.1 && ec.2.mustKeep then ec.2.keyOf else none)

/-- Relationship cleanup: a `KeyOf` reference to a despawned entity is
removed by bevy when the target dies. -/
def pruneKeyOf (dead : Nat → Bool) : Option Nat → Option Nat
  | some t => if dead t then none else some t
  | none => none

/-- Adjustment applied to a despawn survivor: it gains `Locked` when a
dying `MustKeep` key named it, and loses `KeyOf` references into the dead
set. -/
def adjC (dead : Nat → Bool) (adds : List Nat) (e : Nat) (c : Components) :
    Components :=
  { c with
    locked := c.locked || adds.contains e,
    keyOf := pruneKeyOf dead c.keyOf }

/-- Table transformation of a despawn once the locked-door list is
fixed. -/
def dwE2 (dead : Nat → Bool) (adds : List Nat) (l : Ents) : Ents :=
  (l.filter (fun ec => !(dead ec.1))).map
    (fun ec => (ec.1, adjC dead adds ec.1 ec.2))

/-- Entity-table effect of despawning every entity in `dead`: survivors
keep their id and are adjusted for the `must_keep` observer and the
relationship cleanup. -/
def dwE (l : Ents) (dead : Nat → Bool) : Ents :=
  dwE2 dead (must_keep_adds l dead) l

/-- Despawn a set of entities in a world. -/
def despawnWhere (w : World) (dead : Nat → Bool) : World :=
  { w with ents := dwE w.ents dead }

/-- Spawn one entity at the next fresh id. -/
def spawnC (w : World) (c : Components) : World :=
  { w with ents := w.ents ++ [(w.nextId, c)], nextId := w.nextId + 1 }

/-- Strict-ancestor test with fuel. -/
def isAncestorOf (l : Ents) : Nat → Nat → Nat → Bool
  | 0, _, _ => false
  | fuel + 1, a, e =>
    match parentOf l e with
    | some p => p == a || isAncestorOf l fuel a p
    | none => false

/-- Membership in the despawn subtree of `root`. -/
def inSubtree (w : World) (root e : Nat) : Bool :=
  e == root || isAncestorOf w.ents w.nextId root e

/-- Recursive `commands.entity(e).despawn()`. -/
def despawnEntity (w : World) (e : Nat) : World :=
  despawnWhere w (inSubtree w e)

/-- Entities carrying the `Player` marker. -/
def playersOf (w : World) : List Nat :=
  w.ents.filterMap (fun ec => if ec.2.player then some ec.1 else none)

/-- The `Single<Entity, With<Player>>` system parameter: the player entity
when exactly one exists, otherwise the system is skipped. -/
def singlePlayer (w : World) : Option Nat :=
  match playersOf w with
  | [p] => some p
  | _ => none

/-- Membership test of the `killboxes` query (level.rs:87). -/
def hasKillBox (w : World) (e : Nat) : Bool :=
  match getC w e with
  | some c => c.killBox
  | none => false

/-- Membership test of the `keys` query (level.rs:170). -/
def hasKey (w : World) (e : Nat) : Bool :=
  match getC w e with
  | some c => c.key
  | none => false

/-- Membership test of the `bullets` query (level.rs:171). -/
def hasBullet (w : World) (e : Nat) : Bool :=
  match getC w e with
  | some c => c.bullet
  | none => false

/-- `Locked` marker test. -/
def hasLocked (w : World) (e : Nat) : Bool :=
  match getC w e with
  | some c => c.locked
  | none => false

/-- `MustDestroy` marker test (the `must_destroy` query, level.rs:115). -/
def hasMustDestroy (w : World) (e : Nat) : Bool :=
  match getC w e with
  | some c => c.mustDestroy
  | none => false

/-- Target string of a live door. -/
def doorTarget (w : World) (e : Nat) : Option String :=
  (getC w e).bind (fun c => c.door)

/-- The `doors` query `(&Door, ...), Without<Locked>` (level.rs:114): the
target string when `e` is a live, unlocked door. -/
def doorNoLock (w : World) (e : Nat) : Option String :=
  match getC w e with
  | some c => if c.locked then none else c.door
  | none => none

/-- The derived `Keys` relationship collection of a door: every live key
whose `KeyOf` back-reference names it (level.rs:128-136). -/
def keysOfDoor (w : World) (d : Nat) : List Nat :=
  w.ents.filterMap (fun ec => if ec.2.keyOf = some d then some ec.1 else none)

/-- The key condition of the door observer (level.rs:120):
`keys.is_none_or(all not MustDestroy)`; an empty collection is the
`Option<&Keys>` `none` case and passes vacuously. -/
def doorKeysOk (w : World) (d : Nat) : Bool :=
  (keysOfDoor w d).all (fun k => !(hasMustDestroy w k))

/-- Source-derived passability: the non-contact part of the door
observer's guard (level.rs:118-120) — the door is live and unlocked, and
no live associated key is `MustDestroy`. -/
def canPass (w : World) (d : Nat) : Bool :=
  (doorNoLock w d).isSome && doorKeysOk w d

/-- Modelled from the spec: "can-pass(door) → boolean: true iff door has
no Locked marker AND (door has no associated Keys OR every associated Key
is not tagged MustDestroy)" — stated on the markers alone, for comparison
with the source guard. -/
def spec_can_pass (w : World) (d : Nat) : Bool :=
  !(hasLocked w d) &&
    ((keysOfDoor w d).isEmpty || (keysOfDoor w d).all (fun k => !(hasMustDestroy w k)))

/-- Look up a stored scene file. -/
def storeGet (store : List (String × Ents)) (n : String) : Option Ents :=
  (store.find? (fun se => se.1 = n)).map (fun se => se.2)

/-- Create-or-overwrite a stored scene file. -/
def storeSet (store : List (String × Ents)) (n : String) (snap : Ents) :
    List (String × Ents) :=
  (n, snap) :: store

/-- Projection onto the components allow-listed by `serialize_level`
(level.rs:241-265): everything in `Components` except `Locked` (not
reflected, not allow-listed), the transient `Bullet`, and the
`DynamicSceneRoot` load handle. -/
def allowC (c : Components) : Components :=
  { c with locked := false, bullet := false, dynamicSceneRoot := none }

/-- The in-memory snapshot `DynamicSceneBuilder...extract_entities`
builds: the allow-listed components of every entity `With<Serialize>`
(level.rs:235-267). -/
def snapshotOf (w : World) : Ents :=
  w.ents.filterMap
    (fun ec => if ec.2.serializeTag then some (ec.1, allowC ec.2) else none)

/-- System `despawn_level` (level.rs:300-307): despawn every persisted
root, cascading over children. -/
def despawn_level (w : World) : World :=
  { despawnWhere w (fun e => deadByReset w e) with
    log := w.log ++ [Act.despawnPass] }

/-- Components of the loader placeholder spawned by `deserialize_level`
(level.rs:281-286): a `Name` and a `DynamicSceneRoot` handle for
`scenes/<identifier>.scn.ron`. -/
def placeholderC (n : String) : Components :=
  { name := some n, dynamicSceneRoot := some n }

/-- System `deserialize_level` (level.rs:281-286): spawn the placeholder
holding the asynchronous load of the active identifier's file. -/
def deserialize_level (w : World) : World :=
  { spawnC w (placeholderC w.level) with
    log := w.log ++ [Act.deserialize w.level] }

/-- System `reset_level` (level.rs:324-327): run `despawn_level`, then
`deserialize_level`, in that command order. -/
def reset_level (w : World) : World :=
  deserialize_level (despawn_level w)

/-- System `serialize_level` (level.rs:235-279), successful-write path:
the snapshot is built on the simulation thread and the detached task's
write lands in the store under the identifier read when the system ran. -/
def serialize_level (w : World) : World :=
  { w with
    store := storeSet w.store w.level (snapshotOf w),
    log := w.log ++ [Act.serializeTo w.level] }

/-- Observer `killbox` (level.rs:83-92): with exactly one player, a
collision whose first participant is a `KillBox` and whose second is the
player runs `reset_level`. -/
def killbox (w : World) (c1v c2v : Nat) : World :=
  match singlePlayer w with
  | some p =>
    if hasKillBox w c1v = true ∧ c2v = p then reset_level w else w
  | none => w

/-- The state produced when the door observer fires (level.rs:122-124):
`level.0 = door.0.clone()` immediately, then the queued `despawn_level`
and `reset_level`. -/
def doorTransition (w : World) (target : String) : World :=
  reset_level (despawn_level
    { w with level := target, log := w.log ++ [Act.setLevel target] })

/-- Guard of the door observer (level.rs:118-120) as a boolean: exactly
one player which is the second collider, first collider a live unlocked
door, and no live associated key is `MustDestroy`. -/
def doorFires (w : World) (c1v c2v : Nat) : Bool :=
  match singlePlayer w, doorNoLock w c1v with
  | some p, some _ => decide (c2v = p) && doorKeysOk w c1v
  | _, _ => false

/-- Observer `door` (level.rs:110-126). -/
def door (w : World) (c1v c2v : Nat) : World :=
  match singlePlayer w, doorNoLock w c1v with
  | some p, some target =>
    if c2v = p ∧ doorKeysOk w c1v = true then doorTransition w target else w
  | _, _ => w

/-- Observer `destroy_key` (level.rs:167-176): when the first collider is
a `Key` and the second a `Bullet`, despawn the key — and only the key. -/
def destroy_key (w : World) (c1v c2v : Nat) : World :=
  if hasKey w c1v = true ∧ hasBullet w c2v = true then despawnEntity w c1v else w

/-- One `CollisionStart` event: all three registered observers
(level.rs:30-33) examine the pair, in registration order. -/
def collision (w : World) (c1v c2v : Nat) : World :=
  destroy_key (door (killbox w c1v c2v) c1v c2v) c1v c2v

/-- Remap entity references (`ChildOf`, `KeyOf`) of a scene entity when a
snapshot is instantiated: bevy's scene spawner maps entity ids. -/
def remapC (f : Nat → Nat) (c : Components) : Components :=
  { c with childOf := c.childOf.map f, keyOf := c.keyOf.map f }

/-- One past the largest entity id of a snapshot. -/
def snapBound (snap : Ents) : Nat :=
  snap.foldr (fun ec m => max (ec.1 + 1) m) 0

/-- Scene instantiation: spawn every snapshot entity under fresh ids,
with internal references remapped. -/
def instantiate (w : World) (snap : Ents) : World :=
  { w with
    ents := w.ents ++ snap.map
      (fun ec => (w.nextId + ec.1, remapC (fun x => w.nextId + x) ec.2)),
    nextId := w.nextId + snapBound snap }

/-- The live load placeholders, with their pending scene paths. -/
def placeholdersOf (w : World) : List (Nat × String) :=
  w.ents.filterMap (fun ec =>
    match ec.2.dynamicSceneRoot with
    | some path => some (ec.1, path)
    | none => none)

/-- A resolved scene load plus the `remove_dynamic_scene_root` cleanup
(level.rs:288-298): the stored snapshot is instantiated, its roots end up
re-parented to the world, and the placeholder is despawned.  A missing
file never resolves and the placeholder stays. -/
def resolveOne (w : World) (e : Nat) (path : String) : World :=
  match storeGet w.store path with
  | some snap => despawnWhere (instantiate w snap) (fun x => x == e)
  | none => w

/-- Drive every pending load that can resolve this frame. -/
def resolve_all (w : World) : World :=
  (placeholdersOf w).foldl (fun acc ep => resolveOne acc ep.1 ep.2) w

/-- Required-component bundle of `Door` (level.rs:94-105): `Serialize`,
`Transform`, static body, `Sensor`, collision events, a 20 by 20
rectangle collider constructor. -/
def doorComponents (t : String) : Components :=
  { serializeTag := true, transform := some (0, 0),
    globalTransform := some (0, 0), rigidBodyStatic := some true,
    sensor := true, collisionEvents := true, collider := some (20, 20),
    door := some t }

/-- Required-component bundle of `Key` (level.rs:138-149) plus the
variant marker and the `KeyOf` back-reference (inspector.rs:374,381). -/
def keyComponents (destroyVariant keepVariant : Bool) (d : Nat) : Components :=
  { serializeTag := true, transform := some (0, 0),
    globalTransform := some (0, 0), rigidBodyStatic := some true,
    sensor := true, collisionEvents := true, collider := some (20, 20),
    key := true, mustDestroy := destroyVariant, mustKeep := keepVariant,
    keyOf := some d }

/-- Player bundle spawned by `new_level` (level.rs:330-334). -/
def playerComponents : Components :=
  { serializeTag := true, name := some "Player",
    transform := some (-400, 0), globalTransform := some (-400, 0),
    player := true, rigidBodyStatic := some false }

/-- KillBox bundle spawned by `new_level` (level.rs:335-341):
`WIDTH / 10 = 128` wide. -/
def killBoxComponents : Components :=
  { serializeTag := true, transform := some (0, -200),
    globalTransform := some (0, -200), rigidBodyStatic := some true,
    sensor := true, collisionEvents := true, collider := some (128, 25),
    killBox := true }

/-- Level-geometry root bundle spawned by `new_level`
(level.rs:342-348). -/
def geometryComponents : Components :=
  { serializeTag := true, name := some "Level Geometry",
    transform := some (0, 0), globalTransform := some (0, 0),
    visibility := true, levelGeometry := true }

/-- Wall bundle of `new_level` (level.rs:350-373). -/
def wallComponents (nm : String) (x y cw ch : Int) : Components :=
  { serializeTag := true, name := some nm, transform := some (x, y),
    globalTransform := some (x, y), rigidBodyStatic := some true,
    collider := some (cw, ch), wall := true }

/-- System `new_level` (level.rs:329-374): fresh player, a kill box child
of a fresh level-geometry root, and four boundary walls
(`WIDTH = 1280`, `HEIGHT = 720`). -/
def new_level (w : World) : World :=
  let geo := w.nextId + 2
  let w1 := spawnC w playerComponents
  let w2 := spawnC w1 { killBoxComponents with childOf := some geo }
  let w3 := spawnC w2 geometryComponents
  let w4 := spawnC w3 { wallComponents "Bottom Wall" 0 (-360) 1280 25 with childOf := some geo }
  let w5 := spawnC w4 { wallComponents "Left Wall" (-640) 0 25 720 with childOf := some geo }
  let w6 := spawnC w5 { wallComponents "Right Wall" 640 0 25 720 with childOf := some geo }
  spawnC w6 { wallComponents "Top Wall" 0 360 1280 25 with childOf := some geo }

/-- Terminal command `/mk ident` (inspector.rs:346-351): set the
identifier, despawn, build the fresh level, serialize it. -/
def mk_command (w : World) (n : String) : World :=
  serialize_level (new_level (despawn_level
    { w with level := n, log := w.log ++ [Act.setLevel n] }))

/-- Terminal command `/ld ident` (inspector.rs:352-355): set the
identifier, then reset. -/
def ld_command (w : World) (n : String) : World :=
  reset_level { w with level := n, log := w.log ++ [Act.setLevel n] }

/-- Terminal command `/cp ident` (inspector.rs:356-360): `level.0` is
assigned the new name immediately, then the queued `serialize_level` and
`reset_level` run — so the serialization reads the already-updated
identifier. -/
def cp_command (w : World) (n : String) : World :=
  reset_level (serialize_level
    { w with level := n, log := w.log ++ [Act.setLevel n] })

/-- The live doors, for the `Option<Single<(Entity, &mut Door)>>`
parameter of `parse_commands` (inspector.rs:343). -/
def doorsOf (w : World) : List Nat :=
  w.ents.filterMap (fun ec => if ec.2.door.isSome then some ec.1 else none)

/-- The door when exactly one exists. -/
def singleDoor (w : World) : Option Nat :=
  match doorsOf w with
  | [d] => some d
  | _ => none

/-- Terminal command `/door ident` (inspector.rs:361-363). -/
def mkdoor_command (w : World) (t : String) : World :=
  spawnC w (doorComponents t)

/-- Terminal command `/setdoor ident` (inspector.rs:364-370). -/
def setdoor_command (w : World) (t : String) : World :=
  match singleDoor w with
  | some d =>
    { w with ents := w.ents.map (fun ec =>
        if ec.1 = d then (ec.1, { ec.2 with door := some t }) else ec) }
  | none => w

/-- Terminal command `/keep` (inspector.rs:371-377). -/
def keep_command (w : World) : World :=
  match singleDoor w with
  | some d => spawnC w (keyComponents false true d)
  | none => w

/-- Terminal command `/destroy` (inspector.rs:378-384). -/
def destroy_command (w : World) : World :=
  match singleDoor w with
  | some d => spawnC w (keyComponents true false d)
  | none => w

/-- Fate of the simulation thread across one system run. -/
inductive SimOutcome
  | ok (w : World)
  | panicked
  deriving Repr, DecidableEq

/-- The in-simulation part of `serialize_level` with the external
reflection serializer's outcome made explicit: the source calls
`scene.serialize(&type_registry).unwrap()` (level.rs:269), so a
serializer error panics the simulation thread; on success the simulation
continues and the bytes go to the detached task. -/
def serialize_level_outcome (w : World) (serOk : Bool) : SimOutcome :=
  if serOk then SimOutcome.ok { w with log := w.log ++ [Act.serializeTo w.level] }
  else SimOutcome.panicked

/-- Fate of the detached background write task (level.rs:272-278). -/
inductive WriteOutcome
  | written (store : List (String × Ents))
  | taskPanicked (store : List (String × Ents))
  deriving Repr, DecidableEq

/-- The detached file-write task: owns its bytes and path; `expect`
aborts only this task on an I/O failure and the store keeps its previous
contents; the simulation state is not an input and cannot be touched. -/
def write_task (store : List (String × Ents)) (n : String) (snap : Ents)
    (ioOk : Bool) : WriteOutcome :=
  if ioOk then WriteOutcome.written (storeSet store n snap)
  else WriteOutcome.taskPanicked store

/-- Every operation the running program can apply to the modelled state:
collision events, direct despawns (laser, editor delete, despawn of
selected weapons), the keyboard reset and save, the terminal commands,
and scene-load resolution. -/
inductive Op
  | collide (c1v c2v : Nat)
  | despawnEnt (e : Nat)
  | userReset
  | userSerialize
  | mk (n : String)
  | ld (n : String)
  | cp (n : String)
  | mkdoor (t : String)
  | setdoor (t : String)
  | spawnKeep
  | spawnDestroy
  | resolve
  deriving Repr, DecidableEq

/-- Apply one operation. -/
def step (w : World) : Op → World
  | Op.collide a b => collision w a b
  | Op.despawnEnt e => despawnEntity w e
  | Op.userReset => reset_level w
  | Op.userSerialize => serialize_level w
  | Op.mk n => mk_command w n
  | Op.ld n => ld_command w n
  | Op.cp n => cp_command w n
  | Op.mkdoor t => mkdoor_command w t
  | Op.setdoor t => setdoor_command w t
  | Op.spawnKeep => keep_command w
  | Op.spawnDestroy => destroy_command w
  | Op.resolve => resolve_all w

/-- Apply a sequence of operations. -/
def steps (w : World) (ops : List Op) : World :=
  ops.foldl step w

/-- Well-formed id bookkeeping: every live entity id is below the fresh
counter. -/
def IdsOk (w : World) : Prop :=
  ∀ ec ∈ w.ents, ec.1 < w.nextId

/-- The key `k` is a live `MustKeep` key owned by door `d`. -/
def aliveMustKeepKeyOf (w : World) (k d : Nat) : Bool :=
  match getC w k with
  | some c => c.mustKeep && c.keyOf == some d
  | none => false

/-- The door `d` carries `Locked`, or no longer exists at all. -/
def lockedOrGone (w : World) (d : Nat) : Bool :=
  match getC w d with
  | some c => c.locked
  | none => true

/-- Relational invariant behind the permanent-lock property: ids are in
range and either the `MustKeep` key still guards its door or the door is
locked or gone. -/
def KD (k d : Nat) (w : World) : Prop :=
  k < w.nextId ∧ d < w.nextId ∧
    (aliveMustKeepKeyOf w k d = true ∨ lockedOrGone w d = true)

/-- A despawned entity whose id is already below the fresh counter: no
later operation can bring it back. -/
def DeadLt (w : World) (e : Nat) : Prop :=
  e < w.nextId ∧ alive w e = false

/-- Distinct live entity ids. -/
def NodupIds (w : World) : Prop :=
  (w.ents.map (fun ec => ec.1)).Nodup

/-- Per-entity parent check: the parent, when present, is live, has a
strictly smaller id, and is persist-tagged whenever the child is. -/
def parentOkB (l : Ents) (ec : Nat × Components) : Bool :=
  match ec.2.childOf with
  | none => true
  | some p =>
    decide (p < ec.1) &&
      (match getE l p with
       | some cp => !ec.2.serializeTag || cp.serializeTag
       | none => false)

/-- Per-entity key-reference check: a `KeyOf` target is in id range. -/
def keyOfOkB (nextId : Nat) (ec : Nat × Components) : Bool :=
  match ec.2.keyOf with
  | some t => decide (t < nextId)
  | none => true

/-- Well-formed entity forest, the shape every world reachable through
save and load has: ids in range and distinct, parents live, strictly
smaller and persist-tagged whenever the child is, and `KeyOf` references
in range. -/
def TreeWF (w : World) : Prop :=
  IdsOk w ∧ NodupIds w ∧
  w.ents.all (fun ec => parentOkB w.ents ec) = true ∧
  w.ents.all (fun ec => keyOfOkB w.nextId ec) = true

/-- Number of live persisted roots. -/
def serRootCount (w : World) : Nat :=
  (w.ents.filter (fun ec => ec.2.serializeTag && ec.2.childOf.isNone)).length

/-- Pending scene paths of the live load placeholders, in table order. -/
def placeholderPaths (w : World) : List String :=
  w.ents.filterMap (fun ec => ec.2.dynamicSceneRoot)

/-- Concrete world for the destroy-key counterexample: one player, one
`MustDestroy` key without a door, one bullet. -/
def keyWorld : World :=
  { level := "shotgun_1", nextId := 3,
    ents := [(0, { player := true, serializeTag := true }),
             (1, { keyComponents true false 0 with keyOf := none }),
             (2, { bullet := true })],
    store := [] }

/-- Concrete world for the double-reset counterexample: one persisted
geometry root, a stored file for the active identifier. -/
def dblWorld : World :=
  { level := "shotgun_1", nextId := 1,
    ents := [(0, geometryComponents)],
    store := [("shotgun_1", [(0, allowC geometryComponents)])] }

/-- Concrete world for the copy counterexample: identifier `old`, one
persisted entity, empty store. -/
def cpWorld : World :=
  { level := "old", nextId := 1,
    ents := [(0, geometryComponents)],
    store := [] }

/-- Concrete world shared by the gate witnesses: door 0 targeting
`cave_2`, `MustKeep` key 1 owned by it, player 2, kill box 3, bullet 4. -/
def gateWorld : World :=
  { level := "shotgun_1", nextId := 5,
    ents := [(0, doorComponents "cave_2"),
             (1, keyComponents false true 0),
             (2, { player := true, serializeTag := true }),
             (3, killBoxComponents),
             (4, { bullet := true })],
    store := [] }

/-- Concrete world with no player: a kill box and a door only. -/
def noPlayerWorld : World :=
  { level := "shotgun_1", nextId := 2,
    ents := [(0, killBoxComponents), (1, doorComponents "cave_2")],
    store := [] }

/-- Concrete world for the round-trip witness: player, a geometry root
with one wall child, one transient bullet. -/
def rtWorld : World :=
  { level := "lvl", nextId := 4,
    ents := [(0, playerComponents),
             (1, geometryComponents),
             (2, { wallComponents "Bottom Wall" 0 (-360) 1280 25 with childOf := some 1 }),
             (3, { bullet := true })],
    store := [] }

/-- A state predicate closed under the four primitive shapes every
operation of the program is composed of: despawns, fresh spawns, the
door-retarget map, and resource-only updates. -/
def PrimClosed (P : World → Prop) : Prop :=
  (∀ w dead, P w → P (despawnWhere w dead)) ∧
  (∀ (w : World) news n2, (∀ ec ∈ news, w.nextId ≤ ec.1) → w.nextId ≤ n2 →
    P w → P { w with ents := w.ents ++ news, nextId := n2 }) ∧
  (∀ w t, P w → P (setdoor_command w t)) ∧
  (∀ w w2 : World, w2.ents = w.ents → w2.nextId = w.nextId → P w → P w2)

theorem getE_cons (k : Nat) (c : Components) (tl : Ents) (e : Nat) :
    getE ((k, c) :: tl) e = if k = e then some c else getE tl e := by
  by_cases h : k = e <;> simp [getE, List.find?, h]

theorem getE_append (l1 l2 : Ents) (e : Nat) :
    getE (l1 ++ l2) e = (getE l1 e).or (getE l2 e) := by
  simp only [getE, List.find?_append]
  cases l1.find? (fun ec => ec.1 = e) <;> simp

theorem getE_eq_none (l : Ents) (e : Nat) (h : ∀ ec ∈ l, ec.1 ≠ e) :
    getE l e = none := by
  simp only [getE, Option.map_eq_none']
  exact List.find?_eq_none.mpr (fun ec hm => by simpa using h ec hm)

theorem mem_of_getE (l : Ents) (e : Nat) (c : Components)
    (h : getE l e = some c) : (e, c) ∈ l := by
  simp only [getE, Option.map_eq_some'] at h
  obtain ⟨ec, hf, hc⟩ := h
  have hm := List.mem_of_find?_eq_some hf
  have hp := List.find?_some hf
  simp only [decide_eq_true_eq] at hp
  obtain ⟨a, b⟩ := ec
  cases hp
  cases hc
  exact hm

theorem getE_of_mem_nodup (l : Ents) (e : Nat) (c : Components)
    (hnd : (l.map (fun ec => ec.1)).Nodup) (hm : (e, c) ∈ l) :
    getE l e = some c := by
  induction l with
  | nil => cases hm
  | cons hd tl ih =>
    obtain ⟨k, c0⟩ := hd
    simp only [List.map_cons, List.nodup_cons, List.mem_map] at hnd
    rcases List.mem_cons.mp hm with h | h
    · cases h
      simp [getE_cons]
    · have hk : k ≠ e := by
        intro hke
        exact hnd.1 ⟨(e, c), h, by simpa using hke.symm⟩
      rw [getE_cons, if_neg hk]
      exact ih hnd.2 h

theorem getE_dwE2 (dead : Nat → Bool) (adds : List Nat) (l : Ents) (e : Nat) :
    getE (dwE2 dead adds l) e =
      if dead e then none else (getE l e).map (adjC dead adds e) := by
  induction l with
  | nil => simp [dwE2, getE]
  | cons hd tl ih =>
    obtain ⟨k, c⟩ := hd
    by_cases hk : dead k
    · have : dwE2 dead adds ((k, c) :: tl) = dwE2 dead adds tl := by
        simp [dwE2, List.filter_cons, hk]
      rw [this, ih, getE_cons]
      by_cases he : k = e
      · subst he
        simp [hk]
      · rw [if_neg he]
    · have : dwE2 dead adds ((k, c) :: tl) =
          (k, adjC dead adds k c) :: dwE2 dead adds tl := by
        simp [dwE2, List.filter_cons, hk]
      rw [this, getE_cons, getE_cons]
      by_cases he : k = e
      · subst he
        simp [hk]
      · rw [if_neg he, if_neg he, ih]

theorem mem_dwE2 (dead : Nat → Bool) (adds : List Nat) (l : Ents)
    (ec : Nat × Components) (h : ec ∈ dwE2 dead adds l) :
    ∃ c0, (ec.1, c0) ∈ l ∧ dead ec.1 = false ∧ ec.2 = adjC dead adds ec.1 c0 := by
  simp only [dwE2, List.mem_map, List.mem_filter] at h
  obtain ⟨pre, ⟨hm, hdead⟩, hpre⟩ := h
  refine ⟨pre.2, ?_, ?_, ?_⟩
  · have : ec.1 = pre.1 := by rw [← hpre]
    rw [this]
    exact hm
  · have : ec.1 = pre.1 := by rw [← hpre]
    rw [this]
    simpa using hdead
  · have h2 : ec.2 = adjC dead adds pre.1 pre.2 := by rw [← hpre]
    have h1 : ec.1 = pre.1 := by rw [← hpre]
    rw [h2, h1]

theorem getE_mapVals (f : Nat → Components → Components) (l : Ents) (e : Nat) :
    getE (l.map (fun ec => (ec.1, f ec.1 ec.2))) e = (getE l e).map (f e) := by
  induction l with
  | nil => simp [getE]
  | cons hd tl ih =>
    obtain ⟨k, c⟩ := hd
    by_cases he : k = e
    · subst he
      simp [getE_cons]
    · simp only [List.map_cons]
      rw [getE_cons, getE_cons, if_neg he, if_neg he, ih]

theorem rootOf_parentless (l : Ents) (fuel e : Nat)
    (h : parentOf l e = none) : rootOf l fuel e = e := by
  cases fuel <;> simp [rootOf, h]

theorem isAncestorOf_parentless (l : Ents) (fuel a e : Nat)
    (h : parentOf l e = none) : isAncestorOf l fuel a e = false := by
  cases fuel <;> simp [isAncestorOf, h]

theorem KD_despawnWhere (k d : Nat) (w : World) (dead : Nat → Bool)
    (h : KD k d w) : KD k d (despawnWhere w dead) := by
  obtain ⟨hk, hd, hkd⟩ := h
  refine ⟨hk, hd, ?_⟩
  have hglk : getC (despawnWhere w dead) k =
      if dead k then none
      else (getC w k).map (adjC dead (must_keep_adds w.ents dead) k) := by
    simpa [despawnWhere, dwE, getC] using
      getE_dwE2 dead (must_keep_adds w.ents dead) w.ents k
  have hgld : getC (despawnWhere w dead) d =
      if dead d then none
      else (getC w d).map (adjC dead (must_keep_adds w.ents dead) d) := by
    simpa [despawnWhere, dwE, getC] using
      getE_dwE2 dead (must_keep_adds w.ents dead) w.ents d
  rcases hkd with hmk | hlg
  · unfold aliveMustKeepKeyOf at hmk
    rcases hc : getC w k with _ | c
    · rw [hc] at hmk
      cases hmk
    · rw [hc] at hmk
      have hck : c.mustKeep = true ∧ c.keyOf = some d := by
        constructor
        · exact (Bool.and_eq_true ..).mp hmk |>.1
        · have := (Bool.and_eq_true ..).mp hmk |>.2
          simpa using this
      by_cases hdk : dead k = true
      · -- the key dies: the observer marks the door, or the door is gone
        have hadds : d ∈ must_keep_adds w.ents dead := by
          refine List.mem_filterMap.mpr ⟨(k, c), mem_of_getE _ _ _ hc, ?_⟩
          simp [hdk, hck.1, hck.2]
        right
        unfold lockedOrGone
        rw [hgld]
        by_cases hdd : dead d = true
        · simp [hdd]
        · simp only [hdd, Bool.false_eq_true, if_false]
          rcases hcd : getC w d with _ | cd
          · simp
          · simp only [Option.map_some', adjC, Bool.or_eq_true]
            exact Or.inr (by simpa using List.elem_iff.mpr hadds)
      · -- the key survives, with its back-reference intact or pruned
        simp only [Bool.not_eq_true] at hdk
        by_cases hdd : dead d = true
        · right
          unfold lockedOrGone
          rw [hgld]
          simp [hdd]
        · left
          unfold aliveMustKeepKeyOf
          rw [hglk, if_neg (by simp [hdk]), hc]
          simp only [Bool.not_eq_true] at hdd
          simp [adjC, hck.1, hck.2, pruneKeyOf, hdd]
  · right
    unfold lockedOrGone at hlg ⊢
    rw [hgld]
    by_cases hdd : dead d = true
    · simp [hdd]
    · rcases hcd : getC w d with _ | cd
      · simp [hdd, hcd]
      · rw [hcd] at hlg
        simp only at hlg
        simp only [hdd, Bool.false_eq_true, if_false, hcd, Option.map_some',
          adjC, Bool.or_eq_true]
        exact Or.inl hlg

theorem KD_appendFresh (k d : Nat) (w : World) (news : Ents) (n2 : Nat)
    (hnews : ∀ ec ∈ news, w.nextId ≤ ec.1) (hn : w.nextId ≤ n2)
    (h : KD k d w) :
    KD k d { w with ents := w.ents ++ news, nextId := n2 } := by
  obtain ⟨hk, hd, hkd⟩ := h
  have hget : ∀ e, e < w.nextId →
      getE (w.ents ++ news) e = getE w.ents e := by
    intro e he
    rw [getE_append, getE_eq_none news e
      (fun ec hm => Nat.ne_of_gt (Nat.lt_of_lt_of_le he (hnews ec hm)))]
    cases getE w.ents e <;> rfl
  refine ⟨Nat.lt_of_lt_of_le hk hn, Nat.lt_of_lt_of_le hd hn, ?_⟩
  rcases hkd with hmk | hlg
  · left
    unfold aliveMustKeepKeyOf at hmk ⊢
    simpa [getC, hget k hk] using hmk
  · right
    unfold lockedOrGone at hlg ⊢
    simpa [getC, hget d hd] using hlg

theorem DeadLt_despawnWhere (e : Nat) (w : World) (dead : Nat → Bool)
    (h : DeadLt w e) : DeadLt (despawnWhere w dead) e := by
  obtain ⟨he, hdead⟩ := h
  refine ⟨he, ?_⟩
  have hgl : getC (despawnWhere w dead) e =
      if dead e then none
      else (getC w e).map (adjC dead (must_keep_adds w.ents dead) e) := by
    simpa [despawnWhere, dwE, getC] using
      getE_dwE2 dead (must_keep_adds w.ents dead) w.ents e
  unfold alive at hdead ⊢
  rw [hgl]
  rcases hc : getC w e with _ | c
  · by_cases hde : dead e = true <;> simp [hde]
  · rw [hc] at hdead
    cases hdead

theorem DeadLt_appendFresh (e : Nat) (w : World) (news : Ents) (n2 : Nat)
    (hnews : ∀ ec ∈ news, w.nextId ≤ ec.1) (hn : w.nextId ≤ n2)
    (h : DeadLt w e) :
    DeadLt { w with ents := w.ents ++ news, nextId := n2 } e := by
  obtain ⟨he, hdead⟩ := h
  refine ⟨Nat.lt_of_lt_of_le he hn, ?_⟩
  unfold alive getC at hdead ⊢
  rw [getE_append, getE_eq_none news e
    (fun ec hm => Nat.ne_of_gt (Nat.lt_of_lt_of_le he (hnews ec hm)))]
  rcases hc : getE w.ents e with _ | c
  · rfl
  · rw [hc] at hdead
    cases hdead

/-- Effect of the `/setdoor` table map on lookups. -/
theorem getE_setdoor (l : Ents) (t : String) (dd e : Nat) :
    getE (l.map (fun ec =>
        if ec.1 = dd then (ec.1, { ec.2 with door := some t }) else ec)) e =
      (getE l e).map
        (fun c => if e = dd then { c with door := some t } else c) := by
  induction l with
  | nil => simp [getE]
  | cons hd tl ih =>
    obtain ⟨k, c⟩ := hd
    simp only [List.map_cons]
    by_cases hkd : k = dd
    · subst hkd
      by_cases he : k = e
      · subst he
        simp [getE_cons]
      · simp [getE_cons, he, ih]
    · by_cases he : k = e
      · subst he
        simp [getE_cons, hkd]
      · simp [getE_cons, hkd, he, ih]

theorem KD_setdoorMap (k d : Nat) (w : World) (t : String) (dd : Nat)
    (h : KD k d w) :
    KD k d { w with ents := w.ents.map (fun ec =>
      if ec.1 = dd then (ec.1, { ec.2 with door := some t }) else ec) } := by
  obtain ⟨hk, hd2, hkd⟩ := h
  refine ⟨hk, hd2, ?_⟩
  rcases hkd with hmk | hlg
  · left
    unfold aliveMustKeepKeyOf getC at hmk ⊢
    rw [getE_setdoor]
    rcases hc : getE w.ents k with _ | c
    · rw [hc] at hmk
      cases hmk
    · rw [hc] at hmk
      simp only at hmk
      by_cases hkd2 : k = dd <;> simp [hkd2, hmk]
  · right
    unfold lockedOrGone getC at hlg ⊢
    rw [getE_setdoor]
    rcases hc : getE w.ents d with _ | c
    · simp
    · rw [hc] at hlg
      simp only at hlg
      by_cases hdd2 : d = dd <;> simp [hdd2, hlg]

theorem KD_setdoor (k d : Nat) (w : World) (t : String)
    (h : KD k d w) : KD k d (setdoor_command w t) := by
  unfold setdoor_command
  cases singleDoor w with
  | none => exact h
  | some dd => exact KD_setdoorMap k d w t dd h

theorem DeadLt_setdoorMap (e : Nat) (w : World) (t : String) (dd : Nat)
    (h : DeadLt w e) :
    DeadLt { w with ents := w.ents.map (fun ec =>
      if ec.1 = dd then (ec.1, { ec.2 with door := some t }) else ec) } e := by
  obtain ⟨he, hdead⟩ := h
  refine ⟨he, ?_⟩
  unfold alive getC at hdead ⊢
  rw [getE_setdoor]
  rcases hc : getE w.ents e with _ | c
  · rfl
  · rw [hc] at hdead
    cases hdead

theorem DeadLt_setdoor (e : Nat) (w : World) (t : String)
    (h : DeadLt w e) : DeadLt (setdoor_command w t) e := by
  unfold setdoor_command
  cases singleDoor w with
  | none => exact h
  | some dd => exact DeadLt_setdoorMap e w t dd h

theorem closed_spawnC (P : World → Prop) (hP : PrimClosed P)
    (w : World) (c : Components) (h : P w) : P (spawnC w c) := by
  refine hP.2.1 w [(w.nextId, c)] (w.nextId + 1) ?_ (Nat.le_succ _) h
  intro ec hm
  rw [List.mem_singleton.mp hm]

theorem closed_instantiate (P : World → Prop) (hP : PrimClosed P)
    (w : World) (snap : Ents) (h : P w) : P (instantiate w snap) := by
  refine hP.2.1 w _ _ ?_ (Nat.le_add_right _ _) h
  intro ec hm
  simp only [List.mem_map] at hm
  obtain ⟨a, _, rfl⟩ := hm
  exact Nat.le_add_right _ _

theorem closed_despawn_level (P : World → Prop) (hP : PrimClosed P)
    (w : World) (h : P w) : P (despawn_level w) :=
  hP.2.2.2 (despawnWhere w (fun e => deadByReset w e)) (despawn_level w)
    rfl rfl (hP.1 w _ h)

theorem closed_deserialize_level (P : World → Prop) (hP : PrimClosed P)
    (w : World) (h : P w) : P (deserialize_level w) :=
  hP.2.2.2 (spawnC w (placeholderC w.level)) (deserialize_level w)
    rfl rfl (closed_spawnC P hP w _ h)

theorem closed_reset_level (P : World → Prop) (hP : PrimClosed P)
    (w : World) (h : P w) : P (reset_level w) :=
  closed_deserialize_level P hP _ (closed_despawn_level P hP w h)

theorem closed_serialize_level (P : World → Prop) (hP : PrimClosed P)
    (w : World) (h : P w) : P (serialize_level w) :=
  hP.2.2.2 w (serialize_level w) rfl rfl h

theorem closed_new_level (P : World → Prop) (hP : PrimClosed P)
    (w : World) (h : P w) : P (new_level w) := by
  unfold new_level
  iterate 7 apply closed_spawnC P hP
  exact h

theorem closed_killbox (P : World → Prop) (hP : PrimClosed P)
    (w : World) (a b : Nat) (h : P w) : P (killbox w a b) := by
  unfold killbox
  split
  · split
    · exact closed_reset_level P hP w h
    · exact h
  · exact h

theorem closed_door (P : World → Prop) (hP : PrimClosed P)
    (w : World) (a b : Nat) (h : P w) : P (door w a b) := by
  unfold door
  split
  · split
    · unfold doorTransition
      refine closed_reset_level P hP _ (closed_despawn_level P hP _ ?_)
      exact hP.2.2.2 w _ rfl rfl h
    · exact h
  · exact h

theorem closed_destroy_key (P : World → Prop) (hP : PrimClosed P)
    (w : World) (a b : Nat) (h : P w) : P (destroy_key w a b) := by
  unfold destroy_key
  split
  · exact hP.1 w _ h
  · exact h

theorem closed_collision (P : World → Prop) (hP : PrimClosed P)
    (w : World) (a b : Nat) (h : P w) : P (collision w a b) :=
  closed_destroy_key P hP _ a b
    (closed_door P hP _ a b (closed_killbox P hP w a b h))

theorem closed_resolveOne (P : World → Prop) (hP : PrimClosed P)
    (w : World) (e : Nat) (path : String) (h : P w) : P (resolveOne w e path) := by
  unfold resolveOne
  split
  · exact hP.1 _ _ (closed_instantiate P hP w _ h)
  · exact h

theorem closed_foldl {α : Type} (P : World → Prop) (g : World → α → World)
    (hg : ∀ acc a, P acc → P (g acc a)) :
    ∀ (xs : List α) (w : World), P w → P (xs.foldl g w) := by
  intro xs
  induction xs with
  | nil => exact fun w h => h
  | cons x xs ih => exact fun w h => ih _ (hg w x h)

theorem closed_resolve_all (P : World → Prop) (hP : PrimClosed P)
    (w : World) (h : P w) : P (resolve_all w) :=
  closed_foldl P (fun (acc : World) (ep : Nat × String) => resolveOne acc ep.1 ep.2)
    (fun acc a h2 => closed_resolveOne P hP acc a.1 a.2 h2)
    (placeholdersOf w) w h

theorem closed_step (P : World → Prop) (hP : PrimClosed P)
    (w : World) (op : Op) (h : P w) : P (step w op) := by
  cases op with
  | collide a b => exact closed_collision P hP w a b h
  | despawnEnt e => exact hP.1 w _ h
  | userReset => exact closed_reset_level P hP w h
  | userSerialize => exact closed_serialize_level P hP w h
  | mk n =>
    exact closed_serialize_level P hP _ (closed_new_level P hP _
      (closed_despawn_level P hP _ (hP.2.2.2 w _ rfl rfl h)))
  | ld n => exact closed_reset_level P hP _ (hP.2.2.2 w _ rfl rfl h)
  | cp n =>
    exact closed_reset_level P hP _ (closed_serialize_level P hP _
      (hP.2.2.2 w _ rfl rfl h))
  | mkdoor t => exact closed_spawnC P hP w _ h
  | setdoor t => exact hP.2.2.1 w t h
  | spawnKeep =>
    unfold step keep_command
    rcases singleDoor w with _ | dd
    · exact h
    · exact closed_spawnC P hP w _ h
  | spawnDestroy =>
    unfold step destroy_command
    rcases singleDoor w with _ | dd
    · exact h
    · exact closed_spawnC P hP w _ h
  | resolve => exact closed_resolve_all P hP w h

theorem closed_steps (P : World → Prop) (hP : PrimClosed P) :
    ∀ (ops : List Op) (w : World), P w → P (steps w ops) :=
  closed_foldl P step (fun acc a => closed_step P hP acc a)

theorem KD_res (k d : Nat) (w w2 : World) (h1 : w2.ents = w.ents)
    (h2 : w2.nextId = w.nextId) (h : KD k d w) : KD k d w2 := by
  unfold KD aliveMustKeepKeyOf lockedOrGone getC at h ⊢
  rw [h1, h2]
  exact h

theorem DeadLt_res (e : Nat) (w w2 : World) (h1 : w2.ents = w.ents)
    (h2 : w2.nextId = w.nextId) (h : DeadLt w e) : DeadLt w2 e := by
  unfold DeadLt alive getC at h ⊢
  rw [h1, h2]
  exact h

theorem KD_primClosed (k d : Nat) : PrimClosed (KD k d) :=
  ⟨fun w dead h => KD_despawnWhere k d w dead h,
   fun w news n2 hnews hn h => KD_appendFresh k d w news n2 hnews hn h,
   fun w t h => KD_setdoor k d w t h,
   fun w w2 h1 h2 h => KD_res k d w w2 h1 h2 h⟩

theorem DeadLt_primClosed (e : Nat) : PrimClosed (fun w => DeadLt w e) :=
  ⟨fun w dead h => DeadLt_despawnWhere e w dead h,
   fun w news n2 hnews hn h => DeadLt_appendFresh e w news n2 hnews hn h,
   fun w t h => DeadLt_setdoor e w t h,
   fun w w2 h1 h2 h => DeadLt_res e w w2 h1 h2 h⟩

theorem alive_lt (w : World) (e : Nat) (hio : IdsOk w)
    (h : alive w e = true) : e < w.nextId := by
  unfold alive at h
  rcases hc : getC w e with _ | c
  · rw [hc] at h
    cases h
  · exact hio (e, c) (mem_of_getE w.ents e c hc)

theorem alive_of_aliveMK (w : World) (k d : Nat)
    (h : aliveMustKeepKeyOf w k d = true) : alive w k = true := by
  unfold aliveMustKeepKeyOf at h
  unfold alive
  rcases hc : getC w k with _ | c
  · rw [hc] at h
    cases h
  · rfl

theorem canPass_of_lockedOrGone (w : World) (d : Nat)
    (h : lockedOrGone w d = true) : canPass w d = false := by
  unfold lockedOrGone at h
  unfold canPass doorNoLock
  rcases hc : getC w d with _ | c
  · rfl
  · rw [hc] at h
    simp only at h
    simp [h]

theorem hasLocked_of_lockedOrGone (w : World) (d : Nat)
    (h : lockedOrGone w d = true) (ha : alive w d = true) :
    hasLocked w d = true := by
  unfold lockedOrGone at h
  unfold alive at ha
  unfold hasLocked
  rcases hc : getC w d with _ | c
  · rw [hc] at ha
    cases ha
  · rw [hc] at h
    exact h

theorem isEmpty_or_all (l : List Nat) (f : Nat → Bool) :
    (l.isEmpty || l.all f) = l.all f := by
  cases l <;> simp

/-- C1: with exactly one player and a live door as first collider, the
door observer's guard holds exactly for a player contact with
`spec_can_pass` (no `Locked` marker, and no associated key or every
associated key not `MustDestroy`); when it holds the observer performs
the transition, when it fails it leaves the world untouched; and when no
associated key is `MustDestroy` — in particular when only `MustKeep`
keys exist — passability is decided by `Locked` alone, so `MustKeep`
keys never block passage by their mere existence. -/
theorem c1_door_gate (w : World) (c1v c2v p : Nat) (t : String)
    (hp : singlePlayer w = some p) (hd : doorTarget w c1v = some t) :
    doorFires w c1v c2v = (decide (c2v = p) && spec_can_pass w c1v) ∧
    (doorFires w c1v c2v = true → door w c1v c2v = doorTransition w t) ∧
    (doorFires w c1v c2v = false → door w c1v c2v = w) ∧
    ((∀ kk ∈ keysOfDoor w c1v, hasMustDestroy w kk = false) →
      spec_can_pass w c1v = !(hasLocked w c1v)) := by
  unfold doorTarget at hd
  rcases hc : getC w c1v with _ | c
  · rw [hc] at hd
    cases hd
  · rw [hc] at hd
    simp only [Option.some_bind] at hd
    by_cases hl : c.locked = true
    · have hdn : doorNoLock w c1v = none := by
        simp [doorNoLock, hc, hl]
      have hff : doorFires w c1v c2v = false := by
        simp [doorFires, hp, hdn]
      have hsp : spec_can_pass w c1v = false := by
        simp [spec_can_pass, hasLocked, hc, hl]
      refine ⟨?_, ?_, ?_, ?_⟩
      · simp [hff, hsp]
      · intro hh
        rw [hff] at hh
        cases hh
      · intro _
        simp [door, hp, hdn]
      · intro _
        simp [hsp, hasLocked, hc, hl]
    · have hdn : doorNoLock w c1v = some t := by
        simp [doorNoLock, hc, hl, hd]
      have hfe : doorFires w c1v c2v =
          (decide (c2v = p) && doorKeysOk w c1v) := by
        simp [doorFires, hp, hdn]
      have hsp : spec_can_pass w c1v = doorKeysOk w c1v := by
        simp only [spec_can_pass, hasLocked, hc, hl, doorKeysOk,
          Bool.not_false, Bool.true_and, isEmpty_or_all]
      refine ⟨?_, ?_, ?_, ?_⟩
      · rw [hfe, hsp]
      · intro hh
        rw [hfe, Bool.and_eq_true, decide_eq_true_eq] at hh
        simp [door, hp, hdn, hh.1, hh.2]
      · intro hh
        rw [hfe] at hh
        simp only [door, hp, hdn]
        rw [if_neg]
        intro hcontra
        rw [hcontra.2, decide_eq_true hcontra.1] at hh
        cases hh
      · intro hall
        have : doorKeysOk w c1v = true := by
          unfold doorKeysOk
          rw [List.all_eq_true]
          intro kk hm
          rw [hall kk hm]
          rfl
        rw [hsp, this]
        simp [hasLocked, hc, hl]

/-- Witness for the door-gate theorem at `gateWorld`: door 0, player 2. -/
theorem c1_door_gate_witness :
    singlePlayer gateWorld = some 2 ∧
    doorTarget gateWorld 0 = some "cave_2" ∧
    (doorFires gateWorld 0 2 = (decide (2 = 2) && spec_can_pass gateWorld 0) ∧
     (doorFires gateWorld 0 2 = true →
       door gateWorld 0 2 = doorTransition gateWorld "cave_2") ∧
     (doorFires gateWorld 0 2 = false → door gateWorld 0 2 = gateWorld) ∧
     ((∀ kk ∈ keysOfDoor gateWorld 0, hasMustDestroy gateWorld kk = false) →
       spec_can_pass gateWorld 0 = !(hasLocked gateWorld 0))) :=
  ⟨by decide, by decide,
   c1_door_gate gateWorld 0 2 2 "cave_2" (by decide) (by decide)⟩

/-- C3: when the door observer fires with target `t`, the `Level`
resource is assigned `t` first (it is written immediately in the
observer, before the queued systems run), both despawn passes precede
the load, and the load is of the new identifier `t`. -/
theorem c3_transition_order (w : World) (c1v c2v p : Nat) (t : String)
    (hp : singlePlayer w = some p) (hc2 : c2v = p)
    (hdn : doorNoLock w c1v = some t) (hk : doorKeysOk w c1v = true) :
    (door w c1v c2v).level = t ∧
    (door w c1v c2v).log =
      w.log ++ [Act.setLevel t, Act.despawnPass, Act.despawnPass,
        Act.deserialize t] := by
  have hdr : door w c1v c2v = doorTransition w t := by
    simp [door, hp, hdn, hc2, hk]
  rw [hdr]
  constructor
  · rfl
  · show (((w.log ++ [Act.setLevel t]) ++ [Act.despawnPass]) ++
        [Act.despawnPass]) ++ [Act.deserialize t] = _
    simp

/-- Witness for the transition-order theorem: door 0 of `gateWorld`
(whose only key is `MustKeep`) is crossed by player 2. -/
theorem c3_transition_order_witness :
    singlePlayer gateWorld = some 2 ∧
    doorNoLock gateWorld 0 = some "cave_2" ∧
    doorKeysOk gateWorld 0 = true ∧
    ((door gateWorld 0 2).level = "cave_2" ∧
     (door gateWorld 0 2).log =
       gateWorld.log ++ [Act.setLevel "cave_2", Act.despawnPass,
         Act.despawnPass, Act.deserialize "cave_2"]) :=
  ⟨by decide, by decide, by decide,
   c3_transition_order gateWorld 0 2 2 "cave_2" (by decide) rfl
     (by decide) (by decide)⟩

/-- C4: a kill-box contact with the single player runs `reset_level`:
the `Level` resource is unchanged, the despawn pass precedes the reload
of the same identifier, every persisted root is despawned, and a load
placeholder for the same identifier's file is spawned. -/
theorem c4_reset_keeps_identifier (w : World) (c1v c2v p : Nat)
    (hio : IdsOk w) (hp : singlePlayer w = some p)
    (hkb : hasKillBox w c1v = true) (hc2 : c2v = p) :
    (killbox w c1v c2v).level = w.level ∧
    (killbox w c1v c2v).log =
      w.log ++ [Act.despawnPass, Act.deserialize w.level] ∧
    (∀ r, isSerializedRoot w r = true → alive (killbox w c1v c2v) r = false) ∧
    getC (killbox w c1v c2v) w.nextId = some (placeholderC w.level) := by
  have hkr : killbox w c1v c2v = reset_level w := by
    simp [killbox, hp, hkb, hc2]
  rw [hkr]
  have hents : (reset_level w).ents =
      dwE w.ents (fun e => deadByReset w e) ++
        [(w.nextId, placeholderC w.level)] := rfl
  refine ⟨rfl, ?_, ?_, ?_⟩
  · show (w.log ++ [Act.despawnPass]) ++ [Act.deserialize w.level] = _
    simp
  · intro r hr
    unfold isSerializedRoot entsSerRoot at hr
    rcases hcr : getE w.ents r with _ | c
    · rw [hcr] at hr
      cases hr
    rw [hcr] at hr
    have hrlive : alive w r = true := by
      unfold alive getC
      rw [hcr]
      rfl
    have hrlt : r < w.nextId := alive_lt w r hio hrlive
    have hdead : deadByReset w r = true := by
      unfold deadByReset
      have hchild : c.childOf = none :=
        Option.isNone_iff_eq_none.mp ((Bool.and_eq_true ..).mp hr).2
      have hro : rootOf w.ents w.nextId r = r := by
        apply rootOf_parentless
        unfold parentOf
        rw [hcr]
        simp [hchild]
      rw [hro]
      unfold isSerializedRoot entsSerRoot
      rw [hcr]
      exact hr
    unfold alive getC
    rw [hents, getE_append]
    have h1 : getE (dwE w.ents (fun e => deadByReset w e)) r = none := by
      rw [dwE, getE_dwE2, if_pos hdead]
    have h2 : getE [(w.nextId, placeholderC w.level)] r = none := by
      apply getE_eq_none
      intro ec hm
      rw [List.mem_singleton.mp hm]
      exact Nat.ne_of_gt hrlt
    rw [h1, h2]
    rfl
  · unfold getC
    rw [hents, getE_append]
    have h1 : getE (dwE w.ents (fun e => deadByReset w e)) w.nextId = none := by
      apply getE_eq_none
      intro ec hm
      obtain ⟨c0, hmem, _, _⟩ := mem_dwE2 _ _ _ ec hm
      exact Nat.ne_of_lt (hio (ec.1, c0) hmem)
    rw [h1]
    simp [getE_cons]

/-- Witness for the kill-box reset theorem: kill box 3 of `gateWorld`
touched by player 2. -/
theorem c4_reset_keeps_identifier_witness :
    IdsOk gateWorld ∧ hasKillBox gateWorld 3 = true ∧
    ((killbox gateWorld 3 2).level = gateWorld.level ∧
     (killbox gateWorld 3 2).log =
       gateWorld.log ++ [Act.despawnPass, Act.deserialize gateWorld.level] ∧
     (∀ r, isSerializedRoot gateWorld r = true →
       alive (killbox gateWorld 3 2) r = false) ∧
     getC (killbox gateWorld 3 2) gateWorld.nextId =
       some (placeholderC gateWorld.level)) :=
  ⟨by unfold IdsOk; decide, by decide,
   c4_reset_keeps_identifier gateWorld 3 2 2 (by unfold IdsOk; decide)
     (by decide) (by decide) rfl⟩

/-- C10: the kill-box and door observers take the player through a
`Single` parameter; when no player entity exists, each observer is
skipped without error and the whole world — identifier and entity graph
included — is unchanged. -/
theorem c10_no_player_drops_events (w : World) (c1v c2v : Nat)
    (h : playersOf w = []) :
    killbox w c1v c2v = w ∧ door w c1v c2v = w := by
  have hsp : singlePlayer w = none := by
    unfold singlePlayer
    rw [h]
  constructor
  · simp [killbox, hsp]
  · simp [door, hsp]

/-- Witness for the dropped-event theorem in a world with no player. -/
theorem c10_no_player_drops_events_witness :
    playersOf noPlayerWorld = [] ∧
    killbox noPlayerWorld 0 5 = noPlayerWorld ∧
    door noPlayerWorld 1 5 = noPlayerWorld :=
  ⟨by decide,
   (c10_no_player_drops_events noPlayerWorld 0 5 (by decide)).1,
   (c10_no_player_drops_events noPlayerWorld 1 5 (by decide)).2⟩

/-- C5 counterexample: in `keyWorld`, bullet 2 hits key 1; the handler
despawns the key but the projectile is still alive afterwards — the
claim that the handler also despawns the projectile is false on the
code, which only calls `despawn` on `collider1` (level.rs:174). -/
theorem c5_projectile_not_despawned :
    alive (collision keyWorld 1 2) 1 = false ∧
    alive (collision keyWorld 1 2) 2 = true := by decide

/-- C5 amended: for every collision whose first participant is a key and
whose second is a projectile, `destroy_key` despawns the key and leaves
the projectile alive — the projectile is not despawned by this
handler. -/
theorem c5_key_only_despawn (w : World) (c1v c2v : Nat)
    (hk : hasKey w c1v = true) (hb : hasBullet w c2v = true)
    (hroot : parentOf w.ents c2v = none) (hne : c2v ≠ c1v) :
    alive (destroy_key w c1v c2v) c1v = false ∧
    alive (destroy_key w c1v c2v) c2v = true := by
  have hdk : destroy_key w c1v c2v = despawnEntity w c1v := by
    simp [destroy_key, hk, hb]
  rw [hdk]
  have hents : (despawnEntity w c1v).ents = dwE w.ents (inSubtree w c1v) := rfl
  unfold alive getC
  rw [hents]
  constructor
  · rw [dwE, getE_dwE2, if_pos (by simp [inSubtree])]
    rfl
  · have hdead2 : inSubtree w c1v c2v = false := by
      unfold inSubtree
      rw [isAncestorOf_parentless _ _ _ _ hroot]
      simp [hne]
    rw [dwE, getE_dwE2, if_neg (by simp [hdead2])]
    unfold hasBullet at hb
    rcases hc : getC w c2v with _ | c
    · rw [hc] at hb
      cases hb
    · unfold getC at hc
      rw [hc]
      rfl

/-- Witness for the key-only-despawn theorem at `keyWorld`. -/
theorem c5_key_only_despawn_witness :
    hasKey keyWorld 1 = true ∧ hasBullet keyWorld 2 = true ∧
    parentOf keyWorld.ents 2 = none ∧
    alive (destroy_key keyWorld 1 2) 1 = false ∧
    alive (destroy_key keyWorld 1 2) 2 = true :=
  ⟨by decide, by decide, by decide,
   (c5_key_only_despawn keyWorld 1 2 (by decide) (by decide) (by decide)
     (by decide)).1,
   (c5_key_only_despawn keyWorld 1 2 (by decide) (by decide) (by decide)
     (by decide)).2⟩

theorem dsr_adjC (dead : Nat → Bool) (adds : List Nat) (e : Nat)
    (c : Components) :
    (adjC dead adds e c).dynamicSceneRoot = c.dynamicSceneRoot := rfl

theorem paths_dwE2 (dead : Nat → Bool) (adds : List Nat) (l : Ents)
    (h : ∀ ec ∈ l, ec.2.dynamicSceneRoot.isSome = true → dead ec.1 = false) :
    (dwE2 dead adds l).filterMap (fun ec => ec.2.dynamicSceneRoot) =
      l.filterMap (fun ec => ec.2.dynamicSceneRoot) := by
  induction l with
  | nil => rfl
  | cons hd tl ih =>
    obtain ⟨k, c⟩ := hd
    have ihh := ih (fun ec hm hs => h ec (List.mem_cons_of_mem _ hm) hs)
    by_cases hdc : c.dynamicSceneRoot.isSome = true
    · have hdk : dead k = false := h (k, c) (List.mem_cons_self _ _) hdc
      have : dwE2 dead adds ((k, c) :: tl) =
          (k, adjC dead adds k c) :: dwE2 dead adds tl := by
        simp [dwE2, List.filter_cons, hdk]
      rw [this]
      simp only [List.filterMap_cons, dsr_adjC]
      rcases c.dynamicSceneRoot with _ | path
      · exact ihh
      · rw [ihh]
    · have hnone : c.dynamicSceneRoot = none := by
        rcases hdc2 : c.dynamicSceneRoot with _ | path
        · rfl
        · rw [hdc2] at hdc
          simp at hdc
      by_cases hdk : dead k = true
      · have : dwE2 dead adds ((k, c) :: tl) = dwE2 dead adds tl := by
          simp [dwE2, List.filter_cons, hdk]
        rw [this, ihh]
        simp [List.filterMap_cons, hnone]
      · have : dwE2 dead adds ((k, c) :: tl) =
            (k, adjC dead adds k c) :: dwE2 dead adds tl := by
          simp only [Bool.not_eq_true] at hdk
          simp [dwE2, List.filter_cons, hdk]
        rw [this]
        simp only [List.filterMap_cons, dsr_adjC, hnone, ihh]

theorem keys_dwE2 (dead : Nat → Bool) (adds : List Nat) (l : Ents) :
    (dwE2 dead adds l).map (fun ec => ec.1) =
      (l.filter (fun ec => !(dead ec.1))).map (fun ec => ec.1) := by
  simp [dwE2, List.map_map]

/-- One reset appends exactly one pending load of the active identifier,
provided ids are well-formed and every live placeholder is an untagged
root (which every placeholder the code spawns is). -/
theorem paths_reset (w : World) (hnd : NodupIds w)
    (hph : ∀ ec ∈ w.ents, ec.2.dynamicSceneRoot.isSome = true →
      ec.2.serializeTag = false ∧ ec.2.childOf = none) :
    placeholderPaths (reset_level w) = placeholderPaths w ++ [w.level] := by
  have hents : (reset_level w).ents =
      dwE w.ents (fun e => deadByReset w e) ++
        [(w.nextId, placeholderC w.level)] := rfl
  unfold placeholderPaths
  rw [hents, List.filterMap_append]
  have hsafe : ∀ ec ∈ w.ents, ec.2.dynamicSceneRoot.isSome = true →
      deadByReset w ec.1 = false := by
    intro ec hm hs
    obtain ⟨hser, hchild⟩ := hph ec hm hs
    have hget : getE w.ents ec.1 = some ec.2 :=
      getE_of_mem_nodup w.ents ec.1 ec.2 hnd (by
        have : (ec.1, ec.2) = ec := rfl
        rw [this]
        exact hm)
    have hpar : parentOf w.ents ec.1 = none := by
      unfold parentOf
      rw [hget]
      simp [hchild]
    unfold deadByReset
    rw [rootOf_parentless _ _ _ hpar]
    unfold isSerializedRoot entsSerRoot
    rw [hget]
    simp [hser]
  rw [dwE, paths_dwE2 _ _ _ hsafe]
  rfl

theorem IdsOk_reset (w : World) (hio : IdsOk w) : IdsOk (reset_level w) := by
  intro ec hm
  have hents : (reset_level w).ents =
      dwE w.ents (fun e => deadByReset w e) ++
        [(w.nextId, placeholderC w.level)] := rfl
  have hnext : (reset_level w).nextId = w.nextId + 1 := rfl
  rw [hents] at hm
  rw [hnext]
  rcases List.mem_append.mp hm with hm1 | hm2
  · obtain ⟨c0, hmem, _, _⟩ := mem_dwE2 _ _ _ ec hm1
    exact Nat.lt_succ_of_lt (hio (ec.1, c0) hmem)
  · rw [List.mem_singleton.mp hm2]
    exact Nat.lt_succ_self _

theorem NodupIds_reset (w : World) (hio : IdsOk w) (hnd : NodupIds w) :
    NodupIds (reset_level w) := by
  unfold NodupIds at hnd ⊢
  have hents : (reset_level w).ents =
      dwE w.ents (fun e => deadByReset w e) ++
        [(w.nextId, placeholderC w.level)] := rfl
  rw [hents, List.map_append]
  have hsub : List.Sublist
      ((dwE w.ents (fun e => deadByReset w e)).map (fun ec => ec.1))
      (w.ents.map (fun ec => ec.1)) := by
    rw [dwE, keys_dwE2]
    exact List.Sublist.map _ (List.filter_sublist _)
  refine List.Nodup.append (hsub.nodup hnd) (by simp) ?_
  intro a ha hb
  simp only [List.map_cons, List.map_nil, List.mem_singleton] at hb
  subst hb
  have := hsub.subset ha
  simp only [List.mem_map] at this
  obtain ⟨ec, hm, hk⟩ := this
  exact absurd (hk ▸ hio ec hm) (Nat.lt_irrefl _)

theorem hph_reset (w : World)
    (hph : ∀ ec ∈ w.ents, ec.2.dynamicSceneRoot.isSome = true →
      ec.2.serializeTag = false ∧ ec.2.childOf = none) :
    ∀ ec ∈ (reset_level w).ents, ec.2.dynamicSceneRoot.isSome = true →
      ec.2.serializeTag = false ∧ ec.2.childOf = none := by
  intro ec hm hs
  have hents : (reset_level w).ents =
      dwE w.ents (fun e => deadByReset w e) ++
        [(w.nextId, placeholderC w.level)] := rfl
  rw [hents] at hm
  rcases List.mem_append.mp hm with hm1 | hm2
  · obtain ⟨c0, hmem, _, hadj⟩ := mem_dwE2 _ _ _ ec hm1
    have hs0 : c0.dynamicSceneRoot.isSome = true := by
      rw [hadj, dsr_adjC] at hs
      exact hs
    obtain ⟨h1, h2⟩ := hph (ec.1, c0) hmem hs0
    rw [hadj]
    exact ⟨h1, h2⟩
  · rw [List.mem_singleton.mp hm2]
    exact ⟨rfl, rfl⟩

/-- C6 counterexample: in `dblWorld` a double reset in one tick is not
idempotent — its entity table differs from a single reset's, and after
the pending loads resolve the persisted root is duplicated (two roots
instead of one). -/
theorem c6_double_reset_duplicates :
    (reset_level (reset_level dblWorld)).ents ≠ (reset_level dblWorld).ents ∧
    serRootCount (resolve_all (reset_level (reset_level dblWorld))) = 2 ∧
    serRootCount (resolve_all (reset_level dblWorld)) = 1 := by decide

/-- C6 amended: two `reset_level` calls in the same tick queue two
despawn-load cycles, not one; the load placeholder is not persist-tagged,
so the second despawn pass leaves the first placeholder alive and two
pending loads of the same identifier remain (a single reset leaves one),
while the identifier itself is unchanged.  When both loads resolve, the
persisted roots are instantiated twice (see the counterexample). -/
theorem c6_double_reset_two_loads (w : World) (hio : IdsOk w)
    (hnd : NodupIds w)
    (hph : ∀ ec ∈ w.ents, ec.2.dynamicSceneRoot.isSome = true →
      ec.2.serializeTag = false ∧ ec.2.childOf = none) :
    placeholderPaths (reset_level (reset_level w)) =
      placeholderPaths w ++ [w.level, w.level] ∧
    placeholderPaths (reset_level w) = placeholderPaths w ++ [w.level] ∧
    (reset_level (reset_level w)).level = w.level := by
  have h1 : placeholderPaths (reset_level w) =
      placeholderPaths w ++ [w.level] := paths_reset w hnd hph
  have h2 : placeholderPaths (reset_level (reset_level w)) =
      placeholderPaths (reset_level w) ++ [(reset_level w).level] :=
    paths_reset (reset_level w) (NodupIds_reset w hio hnd) (hph_reset w hph)
  have hlv : (reset_level w).level = w.level := rfl
  refine ⟨?_, h1, rfl⟩
  rw [h2, h1, hlv]
  simp

/-- Witness for the two-pending-loads theorem at `dblWorld`. -/
theorem c6_double_reset_two_loads_witness :
    IdsOk dblWorld ∧ NodupIds dblWorld ∧
    placeholderPaths (reset_level (reset_level dblWorld)) =
      placeholderPaths dblWorld ++ [dblWorld.level, dblWorld.level] :=
  ⟨by unfold IdsOk; decide, by unfold NodupIds; decide,
   (c6_double_reset_two_loads dblWorld (by unfold IdsOk; decide)
     (by unfold NodupIds; decide) (by decide)).1⟩

/-- C7 counterexample: in `cpWorld` (identifier `old`, empty store) the
copy command `/cp new` writes nothing under `old` — the snapshot lands
under `new`, because `level.0` is assigned before the queued
`serialize_level` reads it (inspector.rs:356-360).  The claim that the
serialization targets the identifier current at invocation is false. -/
theorem c7_copy_writes_new_name :
    storeGet (cp_command cpWorld "new").store "old" = none ∧
    storeGet (cp_command cpWorld "new").store "new" =
      some [(0, allowC geometryComponents)] := by decide

/-- C7 amended: the copy command first sets the identifier to the new
name, then serializes the current content to the file named by the new
identifier, then resets — so the despawn and the attempted load of the
new name follow the write of the snapshot under the new name. -/
theorem c7_copy_order (w : World) (n : String) :
    (cp_command w n).level = n ∧
    (cp_command w n).store = storeSet w.store n (snapshotOf w) ∧
    (cp_command w n).log =
      w.log ++ [Act.setLevel n, Act.serializeTo n, Act.despawnPass,
        Act.deserialize n] := by
  refine ⟨rfl, rfl, ?_⟩
  show (((w.log ++ [Act.setLevel n]) ++ [Act.serializeTo n]) ++
      [Act.despawnPass]) ++ [Act.deserialize n] = _
  simp

/-- C9 counterexample: the in-simulation snapshot-serialization step
calls `unwrap` on the external serializer's result (level.rs:269), so a
serializer failure panics the simulation thread instead of surfacing as
log output — the claim that this step never aborts the simulation is
false. -/
theorem c9_snapshot_failure_panics :
    serialize_level_outcome cpWorld false = SimOutcome.panicked := by decide

/-- C9 amended: an I/O write failure is fatal only to the detached
background task — the store keeps its previous contents and the
simulation state is not even an input of the task — and a successful
snapshot leaves the simulation running; but a failure of the
in-simulation serialization step panics the simulation thread. -/
theorem c9_failure_routing (store : List (String × Ents)) (n : String)
    (snap : Ents) (w : World) :
    write_task store n snap false = WriteOutcome.taskPanicked store ∧
    write_task store n snap true =
      WriteOutcome.written (storeSet store n snap) ∧
    serialize_level_outcome w true =
      SimOutcome.ok { w with log := w.log ++ [Act.serializeTo w.level] } ∧
    serialize_level_outcome w false = SimOutcome.panicked :=
  ⟨rfl, rfl, rfl, rfl⟩

theorem rootSer (l : Ents)
    (hpo : ∀ ec ∈ l, parentOkB l ec = true) :
    ∀ (fuel e : Nat) (c : Components), getE l e = some c →
      c.serializeTag = true → e < fuel →
      entsSerRoot l (rootOf l fuel e) = true := by
  intro fuel
  induction fuel with
  | zero => exact fun e c _ _ h => absurd h (Nat.not_lt_zero e)
  | succ f ih =>
    intro e c hget hser hlt
    unfold rootOf
    rcases hp : parentOf l e with _ | p
    · simp only [hp]
      unfold entsSerRoot
      rw [hget]
      have hchild : c.childOf = none := by
        unfold parentOf at hp
        rw [hget] at hp
        simpa using hp
      simp [hser, hchild]
    · simp only [hp]
      have hchild : c.childOf = some p := by
        unfold parentOf at hp
        rw [hget] at hp
        simpa using hp
      have hpo2 := hpo (e, c) (mem_of_getE l e c hget)
      unfold parentOkB at hpo2
      rw [hchild] at hpo2
      simp only at hpo2
      obtain ⟨hplt, hrest⟩ := (Bool.and_eq_true ..).mp hpo2
      rcases hgp : getE l p with _ | cp
      · rw [hgp] at hrest
        cases hrest
      · rw [hgp] at hrest
        have hcps : cp.serializeTag = true := by
          rw [hser] at hrest
          simpa using hrest
        exact ih p cp hgp hcps
          (Nat.lt_of_lt_of_le (of_decide_eq_true hplt) (Nat.le_of_lt_succ hlt))

/-- In a well-formed forest, every persist-tagged entity dies in
`despawn_level`: the root of its parent chain is a persisted root. -/
theorem serialized_dead (w : World) (htw : TreeWF w)
    (e : Nat) (c : Components) (hm : (e, c) ∈ w.ents)
    (hser : c.serializeTag = true) : deadByReset w e = true := by
  obtain ⟨hio, hnd, hpo, _⟩ := htw
  have hget : getE w.ents e = some c := getE_of_mem_nodup w.ents e c hnd hm
  have hpo2 : ∀ ec ∈ w.ents, parentOkB w.ents ec = true :=
    fun ec hm2 => List.all_eq_true.mp hpo ec hm2
  exact rootSer w.ents hpo2 w.nextId e c hget hser (hio (e, c) hm)

/-- A despawn whose dead set holds no `MustKeep` carrier and is hit by
no `KeyOf` reference is a plain filter. -/
theorem dwE_noop (l : Ents) (dead : Nat → Bool)
    (h1 : ∀ ec ∈ l, dead ec.1 = true → ec.2.mustKeep = false)
    (h2 : ∀ ec ∈ l, ∀ t, ec.2.keyOf = some t → dead t = false) :
    dwE l dead = l.filter (fun ec => !(dead ec.1)) := by
  have hadds : must_keep_adds l dead = [] := by
    rw [must_keep_adds, List.filterMap_eq_nil_iff]
    intro ec hm
    by_cases hd : dead ec.1 = true
    · rw [hd, h1 ec hm hd]
      rfl
    · simp only [Bool.not_eq_true] at hd
      rw [hd]
      rfl
  unfold dwE
  rw [hadds]
  unfold dwE2
  have hcongr : ∀ ec ∈ l.filter (fun ec => !(dead ec.1)),
      ((ec.1, adjC dead [] ec.1 ec.2) : Nat × Components) = ec := by
    intro ec hm
    have hm2 : ec ∈ l := (List.mem_filter.mp hm).1
    have hko : pruneKeyOf dead ec.2.keyOf = ec.2.keyOf := by
      rcases hk : ec.2.keyOf with _ | t
      · rfl
      · show (if dead t = true then none else some t) = some t
        simp [h2 ec hm2 t hk]
    unfold adjC
    rw [hko]
    simp
  rw [List.map_congr_left hcongr, List.map_id']

/-- C8: serialize, reset and let the load resolve; for every well-formed
persisted-entity set the resulting persisted entities are exactly the
originals shifted by an injective id translation, with every allow-listed
component field — name, transforms, visibility, player and weapon
markers, door target, key variant tags, parent/child and key ownership
references (translated), and collider constructor parameters — equal to
the original's `allowC` projection. -/
theorem c8_roundtrip (w : World) (htw : TreeWF w)
    (hph : ∀ ec ∈ w.ents, ec.2.dynamicSceneRoot = none) :
    ∃ N, w.nextId < N ∧ Function.Injective (fun x => N + x) ∧
      (∀ e c, (e, c) ∈ w.ents → c.serializeTag = true →
        (N + e, remapC (fun x => N + x) (allowC c)) ∈
          (resolve_all (reset_level (serialize_level w))).ents) ∧
      (∀ e2 c2,
        (e2, c2) ∈ (resolve_all (reset_level (serialize_level w))).ents →
        c2.serializeTag = true →
        ∃ e c, (e, c) ∈ w.ents ∧ c.serializeTag = true ∧
          e2 = N + e ∧ c2 = remapC (fun x => N + x) (allowC c)) := by
  obtain ⟨hio, hnd, hpo, hkb⟩ := htw
  have hfinal : (resolve_all (reset_level (serialize_level w))).ents =
      dwE w.ents (fun e => deadByReset w e) ++
        (snapshotOf w).map (fun ec =>
          ((w.nextId + 1) + ec.1,
           remapC (fun x => (w.nextId + 1) + x) ec.2)) := by
    have hw2 : (reset_level (serialize_level w)).ents =
        dwE w.ents (fun e => deadByReset w e) ++
          [(w.nextId, placeholderC w.level)] := rfl
    have hpl : placeholdersOf (reset_level (serialize_level w)) =
        [(w.nextId, w.level)] := by
      unfold placeholdersOf
      rw [hw2, List.filterMap_append]
      have hz : (dwE w.ents (fun e => deadByReset w e)).filterMap
          (fun ec => match ec.2.dynamicSceneRoot with
            | some path => some (ec.1, path)
            | none => none) = [] := by
        rw [List.filterMap_eq_nil_iff]
        intro ec hm
        obtain ⟨c0, hmem, _, hadj⟩ := mem_dwE2 _ _ _ ec hm
        rw [hadj, dsr_adjC, hph (ec.1, c0) hmem]
      rw [hz]
      rfl
    have hra : resolve_all (reset_level (serialize_level w)) =
        resolveOne (reset_level (serialize_level w)) w.nextId w.level := by
      unfold resolve_all
      rw [hpl]
      rfl
    have hsg : storeGet (reset_level (serialize_level w)).store w.level =
        some (snapshotOf w) := by
      show storeGet (storeSet w.store w.level (snapshotOf w)) w.level = _
      unfold storeSet storeGet
      simp [List.find?]
    have hro : resolveOne (reset_level (serialize_level w)) w.nextId w.level =
        despawnWhere
          (instantiate (reset_level (serialize_level w)) (snapshotOf w))
          (fun x => x == w.nextId) := by
      unfold resolveOne
      rw [hsg]
    rw [hra, hro]
    have hkeys1 : ∀ ec ∈ dwE w.ents (fun e => deadByReset w e),
        ec.1 < w.nextId := by
      intro ec hm
      obtain ⟨c0, hmem, _, _⟩ := mem_dwE2 _ _ _ ec hm
      exact hio (ec.1, c0) hmem
    have hnoop : dwE ((dwE w.ents (fun e => deadByReset w e) ++
          [(w.nextId, placeholderC w.level)]) ++
        (snapshotOf w).map (fun ec =>
          ((w.nextId + 1) + ec.1,
           remapC (fun x => (w.nextId + 1) + x) ec.2)))
        (fun x => x == w.nextId) =
        ((dwE w.ents (fun e => deadByReset w e) ++
          [(w.nextId, placeholderC w.level)]) ++
        (snapshotOf w).map (fun ec =>
          ((w.nextId + 1) + ec.1,
           remapC (fun x => (w.nextId + 1) + x) ec.2))).filter
          (fun ec => !(ec.1 == w.nextId)) := by
      apply dwE_noop
      · intro ec hm hd
        rcases List.mem_append.mp hm with hm12 | hm3
        · rcases List.mem_append.mp hm12 with hm1 | hm2
          · exact absurd (beq_iff_eq.mp hd)
              (Nat.ne_of_lt (hkeys1 ec hm1))
          · rw [List.mem_singleton.mp hm2]
            rfl
        · rw [List.mem_map] at hm3
          obtain ⟨a, _, rfl⟩ := hm3
          exact absurd (beq_iff_eq.mp hd)
            (Nat.ne_of_gt (Nat.lt_of_lt_of_le (Nat.lt_succ_self _)
              (Nat.le_add_right _ _)))
      · intro ec hm t hk
        rcases List.mem_append.mp hm with hm12 | hm3
        · rcases List.mem_append.mp hm12 with hm1 | hm2
          · obtain ⟨c0, hmem, _, hadj⟩ := mem_dwE2 _ _ _ ec hm1
            have hk0 : c0.keyOf = some t := by
              have hkp : ec.2.keyOf = pruneKeyOf
                  (fun e => deadByReset w e) c0.keyOf := by
                rw [hadj]
                rfl
              rw [hkp] at hk
              rcases hk0 : c0.keyOf with _ | t0
              · rw [hk0] at hk
                cases hk
              · rw [hk0] at hk
                have hk2 : (if deadByReset w t0 = true
                    then none else some t0) = some t := hk
                by_cases hdt : deadByReset w t0 = true
                · rw [if_pos hdt] at hk2
                  cases hk2
                · rw [if_neg hdt] at hk2
                  exact hk2
            have hko := List.all_eq_true.mp hkb (ec.1, c0) hmem
            unfold keyOfOkB at hko
            rw [hk0] at hko
            exact beq_eq_false_iff_ne.mpr
              (Nat.ne_of_lt (of_decide_eq_true hko))
          · rw [List.mem_singleton.mp hm2] at hk
            cases hk
        · rw [List.mem_map] at hm3
          obtain ⟨a, ham, rfl⟩ := hm3
          have hts : ∃ t0, a.2.keyOf = some t0 ∧ t = (w.nextId + 1) + t0 := by
            have hkre : (remapC (fun x => (w.nextId + 1) + x) a.2).keyOf =
                a.2.keyOf.map (fun x => (w.nextId + 1) + x) := rfl
            rw [hkre] at hk
            rcases hka : a.2.keyOf with _ | t0
            · rw [hka] at hk
              cases hk
            · rw [hka] at hk
              simp only [Option.map_some'] at hk
              exact ⟨t0, rfl, (Option.some_inj.mp hk).symm⟩
          obtain ⟨t0, _, rfl⟩ := hts
          exact beq_eq_false_iff_ne.mpr
            (Nat.ne_of_gt (Nat.lt_of_lt_of_le (Nat.lt_succ_self _)
              (Nat.le_add_right _ _)))
    show (despawnWhere (instantiate (reset_level (serialize_level w))
        (snapshotOf w)) (fun x => x == w.nextId)).ents = _
    have hdwents : (despawnWhere (instantiate
        (reset_level (serialize_level w)) (snapshotOf w))
        (fun x => x == w.nextId)).ents =
        dwE ((dwE w.ents (fun e => deadByReset w e) ++
          [(w.nextId, placeholderC w.level)]) ++
        (snapshotOf w).map (fun ec =>
          ((w.nextId + 1) + ec.1,
           remapC (fun x => (w.nextId + 1) + x) ec.2)))
        (fun x => x == w.nextId) := rfl
    rw [hdwents, hnoop, List.filter_append, List.filter_append]
    have hf1 : (dwE w.ents (fun e => deadByReset w e)).filter
        (fun ec => !(ec.1 == w.nextId)) =
        dwE w.ents (fun e => deadByReset w e) := by
      rw [List.filter_eq_self]
      intro ec hm
      simp [beq_eq_false_iff_ne.mpr (Nat.ne_of_lt (hkeys1 ec hm))]
    have hf2 : ([(w.nextId, placeholderC w.level)] : Ents).filter
        (fun ec => !(ec.1 == w.nextId)) = [] := by
      simp
    have hf3 : ((snapshotOf w).map (fun ec =>
        ((w.nextId + 1) + ec.1,
         remapC (fun x => (w.nextId + 1) + x) ec.2))).filter
        (fun ec => !(ec.1 == w.nextId)) =
        (snapshotOf w).map (fun ec =>
          ((w.nextId + 1) + ec.1,
           remapC (fun x => (w.nextId + 1) + x) ec.2)) := by
      rw [List.filter_eq_self]
      intro ec hm
      rw [List.mem_map] at hm
      obtain ⟨a, _, rfl⟩ := hm
      simp only [Bool.not_eq_eq_eq_not, Bool.not_true]
      exact beq_eq_false_iff_ne.mpr
        (Nat.ne_of_gt (Nat.lt_of_lt_of_le (Nat.lt_succ_self _)
          (Nat.le_add_right _ _)))
    rw [hf1, hf2, hf3, List.append_nil]
  refine ⟨w.nextId + 1, Nat.lt_succ_self _,
    fun a b hab => by simpa using hab, ?_, ?_⟩
  · intro e c hm hser
    rw [hfinal]
    apply List.mem_append.mpr
    right
    rw [List.mem_map]
    refine ⟨(e, allowC c), ?_, rfl⟩
    unfold snapshotOf
    rw [List.mem_filterMap]
    exact ⟨(e, c), hm, by simp [hser]⟩
  · intro e2 c2 hm2 hser2
    rw [hfinal] at hm2
    rcases List.mem_append.mp hm2 with hml | hmr
    · obtain ⟨c0, hmem, hdead0, hadj⟩ := mem_dwE2 _ _ _ (e2, c2) hml
      have hadj2 : c2 = adjC (fun e => deadByReset w e)
          (must_keep_adds w.ents (fun e => deadByReset w e)) e2 c0 := hadj
      have hser0 : c0.serializeTag = true := by
        rw [hadj2] at hser2
        exact hser2
      have hdd := serialized_dead w ⟨hio, hnd, hpo, hkb⟩ e2 c0 hmem hser0
      have hdead2 : deadByReset w e2 = false := hdead0
      rw [hdd] at hdead2
      cases hdead2
    · rw [List.mem_map] at hmr
      obtain ⟨a, ham, heq⟩ := hmr
      unfold snapshotOf at ham
      rw [List.mem_filterMap] at ham
      obtain ⟨b, hbm, hfb⟩ := ham
      by_cases hsb : b.2.serializeTag = true
      · rw [if_pos hsb] at hfb
        have ha : a = (b.1, allowC b.2) := (Option.some_inj.mp hfb).symm
        rw [ha] at heq
        obtain ⟨h1, h2⟩ := Prod.ext_iff.mp heq
        refine ⟨b.1, b.2, ?_, hsb, h1.symm, h2.symm⟩
        exact hbm
      · rw [if_neg hsb] at hfb
        cases hfb

/-- Witness for the round-trip theorem at `rtWorld` (player, geometry
root with a wall child, one transient bullet). -/
theorem c8_roundtrip_witness :
    TreeWF rtWorld ∧
    (∀ ec ∈ rtWorld.ents, ec.2.dynamicSceneRoot = none) ∧
    (∃ N, rtWorld.nextId < N ∧ Function.Injective (fun x => N + x) ∧
      (∀ e c, (e, c) ∈ rtWorld.ents → c.serializeTag = true →
        (N + e, remapC (fun x => N + x) (allowC c)) ∈
          (resolve_all (reset_level (serialize_level rtWorld))).ents) ∧
      (∀ e2 c2,
        (e2, c2) ∈ (resolve_all (reset_level (serialize_level rtWorld))).ents →
        c2.serializeTag = true →
        ∃ e c, (e, c) ∈ rtWorld.ents ∧ c.serializeTag = true ∧
          e2 = N + e ∧ c2 = remapC (fun x => N + x) (allowC c))) :=
  ⟨by unfold TreeWF IdsOk NodupIds; decide, by decide,
   c8_roundtrip rtWorld (by unfold TreeWF IdsOk NodupIds; decide) (by decide)⟩

/-- C2: once a door's `MustKeep` key is removed — by any modelled cause —
the door is `Locked` whenever it still exists, its guard `canPass` is
false, and it stays false under every further sequence of operations: no
operation removes `Locked`, and the despawned door can never be passed
again, even if new keys are added and removed later. -/
theorem c2_must_keep_permanent_lock (w : World) (k d : Nat) (ops : List Op)
    (hio : IdsOk w)
    (hk : aliveMustKeepKeyOf w k d = true)
    (hd : alive w d = true)
    (hdead : alive (steps w ops) k = false) :
    canPass (steps w ops) d = false ∧
    (alive (steps w ops) d = true → hasLocked (steps w ops) d = true) ∧
    (∀ more : List Op, canPass (steps (steps w ops) more) d = false) := by
  have hkd0 : KD k d w :=
    ⟨alive_lt w k hio (alive_of_aliveMK w k d hk), alive_lt w d hio hd,
     Or.inl hk⟩
  have hkd1 : KD k d (steps w ops) :=
    closed_steps _ (KD_primClosed k d) ops w hkd0
  have hlg1 : lockedOrGone (steps w ops) d = true := by
    rcases hkd1.2.2 with hmk | hlg
    · have h1 := alive_of_aliveMK _ k d hmk
      rw [hdead] at h1
      cases h1
    · exact hlg
  refine ⟨canPass_of_lockedOrGone _ d hlg1,
    hasLocked_of_lockedOrGone _ d hlg1, ?_⟩
  intro more
  have hdl1 : DeadLt (steps w ops) k := ⟨hkd1.1, hdead⟩
  have hkd2 : KD k d (steps (steps w ops) more) :=
    closed_steps _ (KD_primClosed k d) more _ hkd1
  have hdl2 : DeadLt (steps (steps w ops) more) k :=
    closed_steps _ (DeadLt_primClosed k) more _ hdl1
  have hlg2 : lockedOrGone (steps (steps w ops) more) d = true := by
    rcases hkd2.2.2 with hmk | hlg
    · have h1 := alive_of_aliveMK _ k d hmk
      rw [hdl2.2] at h1
      cases h1
    · exact hlg
  exact canPass_of_lockedOrGone _ d hlg2

/-- Witness for the permanent-lock theorem: in `gateWorld` the `MustKeep`
key 1 of door 0 is destroyed by bullet 4, and the door can never be
passed afterwards. -/
theorem c2_must_keep_permanent_lock_witness :
    IdsOk gateWorld ∧
    aliveMustKeepKeyOf gateWorld 1 0 = true ∧
    alive gateWorld 0 = true ∧
    alive (steps gateWorld [Op.collide 1 4]) 1 = false ∧
    canPass (steps gateWorld [Op.collide 1 4]) 0 = false :=
  ⟨by unfold IdsOk; decide, by decide, by decide, by decide,
   (c2_must_keep_permanent_lock gateWorld 1 0 [Op.collide 1 4]
     (by unfold IdsOk; decide) (by decide) (by decide) (by decide)).1⟩

end Shplat
